import Mathlib

/-!
Shallow embedding of the lazy-loading file-tree controller of this
repository (the FileTree component, together with the FileRow row
renderer and the FileNode data model).

Modelling conventions:
* A node's optional asynchronous loader (the loadChildren field, a
  function returning a promise of child nodes) is embedded as a Bool
  flag hasLoader recording its presence; the values a loader delivers
  are supplied by the environment through settle events, since the
  loader is an arbitrary external collaborator.
* The per-mount React state hooks (expanded, loadedChildren, loading,
  errors, selectedId, isInitialLoading) become fields of TreeState.
  JavaScript object maps keyed by node id become association lists with
  first-match lookup; the object-spread write (a copy extended with one
  key) becomes consing the new binding in front.
* The asynchronous body of loadNodeChildren splits at its await point:
  the synchronous prefix (set loading true, set errors false, start the
  call) is the function loadNodeChildren below, and the continuation
  (try-success / catch / finally) is settleFetch, which the environment
  fires once per in-flight call.  The multiset of in-flight calls is
  tracked in the pending field; fetchLog records every loader
  invocation in order, for counting.
-/

inductive NodeType where
  | file
  | folder
deriving DecidableEq, Repr

/-- The FileNode data shape: id, name, kind, optional size in KB,
optional static child list, and presence of an async loader. -/
inductive FileNode where
  | mk (id : String) (name : String) (type : NodeType) (sizeKB : Option Nat)
      (children : Option (List FileNode)) (hasLoader : Bool) : FileNode

def FileNode.id : FileNode → String
  | .mk i _ _ _ _ _ => i

def FileNode.name : FileNode → String
  | .mk _ n _ _ _ _ => n

def FileNode.type : FileNode → NodeType
  | .mk _ _ t _ _ _ => t

def FileNode.sizeKB : FileNode → Option Nat
  | .mk _ _ _ s _ _ => s

def FileNode.children : FileNode → Option (List FileNode)
  | .mk _ _ _ _ c _ => c

def FileNode.hasLoader : FileNode → Bool
  | .mk _ _ _ _ _ l => l

/-- First-match lookup in an association list keyed by node id
(object-map indexing; none models an undefined property). -/
def lookupKey {α : Type} : List (String × α) → String → Option α
  | [], _ => none
  | (k, v) :: rest, id => if k = id then some v else lookupKey rest id

/-- Object-spread write: the new binding shadows any previous one. -/
def setKey {α : Type} (m : List (String × α)) (id : String) (v : α) :
    List (String × α) :=
  (id, v) :: m

/-- Boolean map read with a falsy default for a missing key. -/
def getFlag (m : List (String × Bool)) (id : String) : Bool :=
  (lookupKey m id).getD false

/-- Number of occurrences of an id in a list of ids. -/
def countId : List String → String → Nat
  | [], _ => 0
  | x :: rest, id => (if x = id then 1 else 0) + countId rest id

/-- Remove one occurrence of an id (one in-flight call completing). -/
def removeOne : List String → String → List String
  | [], _ => []
  | x :: rest, id => if x = id then rest else x :: removeOne rest id

/-- The per-mount state of the FileTree controller. -/
structure TreeState where
  expanded : List (String × Bool)
  loadedChildren : List (String × List FileNode)
  loading : List (String × Bool)
  errors : List (String × Bool)
  selectedId : Option String
  isInitialLoading : Bool
  pending : List String
  fetchLog : List String

/-- Outcome of one loader call, chosen by the environment. -/
inductive FetchOutcome where
  | ok (children : List FileNode)
  | error

/-- Synchronous prefix of loadNodeChildren: returns unchanged when the
node has no loader; otherwise marks the node loading, clears its error
flag, and starts one loader call (recorded in pending and fetchLog). -/
def loadNodeChildren (node : FileNode) (s : TreeState) : TreeState :=
  if node.hasLoader = false then s
  else
    { s with
      loading := setKey s.loading node.id true
      errors := setKey s.errors node.id false
      pending := s.pending ++ [node.id]
      fetchLog := s.fetchLog ++ [node.id] }

/-- Continuation of loadNodeChildren after the awaited loader settles.
Only an in-flight call can settle (guard on pending).  On success the
children are written to the cache and, when the id is the root id, the
tree-wide initial-loading flag is cleared; on failure the error flag is
set and the cache is untouched; either way (the finally block) the
loading flag is cleared. -/
def settleFetch (rootId : String) (id : String) (outcome : FetchOutcome)
    (s : TreeState) : TreeState :=
  if countId s.pending id = 0 then s
  else
    let s1 := { s with pending := removeOne s.pending id }
    match outcome with
    | .ok children =>
        let s2 := { s1 with loadedChildren := setKey s1.loadedChildren id children }
        let s3 := if id = rootId then { s2 with isInitialLoading := false } else s2
        { s3 with loading := setKey s3.loading id false }
    | .error =>
        { s1 with
          errors := setKey s1.errors id true
          loading := setKey s1.loading id false }

/-- handleToggle: flip the node's expansion flag; when the flip expands
the node, the node owns a loader and its cache entry is absent, start a
load.  The gate reads only the cache, never the loading flag. -/
def handleToggle (node : FileNode) (s : TreeState) : TreeState :=
  let newExpanded := ! getFlag s.expanded node.id
  let s1 :=
    if newExpanded && node.hasLoader then
      if (lookupKey s.loadedChildren node.id).isNone then loadNodeChildren node s
      else s
    else s
  { s1 with expanded := setKey s1.expanded node.id newExpanded }

/-- handleSelect: record the node as the single selected id. -/
def handleSelect (node : FileNode) (s : TreeState) : TreeState :=
  { s with selectedId := some node.id }

/-- handleClick of FileRow: a folder row fires onToggle then onSelect;
a file row fires only onSelect. -/
def handleClick (node : FileNode) (s : TreeState) : TreeState :=
  let s1 := if node.type = NodeType.folder then handleToggle node s else s
  handleSelect node s1

/-- Iterated row clicks on the same node. -/
def clickN (node : FileNode) : Nat → TreeState → TreeState
  | 0, s => s
  | k + 1, s => clickN node k (handleClick node s)

/-- State right after mounting the FileTree on a root node: the root
starts expanded exactly when it owns a loader, the initial-loading flag
starts as the presence of the root loader, and the mount effect starts
the root load when a loader is present. -/
def mountTree (root : FileNode) : TreeState :=
  let s0 : TreeState :=
    { expanded := if root.hasLoader then [(root.id, true)] else []
      loadedChildren := []
      loading := []
      errors := []
      selectedId := none
      isInitialLoading := root.hasLoader
      pending := []
      fetchLog := [] }
  if root.hasLoader then loadNodeChildren root s0 else s0

/-- Events the environment can fire on a mounted tree. -/
inductive TreeEvent where
  | toggle (node : FileNode)
  | select (node : FileNode)
  | click (node : FileNode)
  | settle (id : String) (outcome : FetchOutcome)

def stepEvent (rootId : String) (s : TreeState) : TreeEvent → TreeState
  | .toggle n => handleToggle n s
  | .select n => handleSelect n s
  | .click n => handleClick n s
  | .settle id outcome => settleFetch rootId id outcome s

def runEvents (rootId : String) (s : TreeState) : List TreeEvent → TreeState
  | [] => s
  | e :: es => runEvents rootId (stepEvent rootId s e) es

/-- Whether an event can ever start a loader call: only a toggle, or a
click on a folder row (which performs a toggle), can. -/
def canFetch : TreeEvent → Bool
  | .toggle _ => true
  | .click n => n.type = NodeType.folder
  | _ => false

/-- Whether an event is the successful completion of a loader call for
the root id (the only event that clears the initial-loading flag). -/
def isRootSuccess (rootId : String) : TreeEvent → Bool
  | .settle id (.ok _) => id = rootId
  | _ => false

/-- The child list renderNode recurses into: the cache entry when
present, else the static child list, else nothing. -/
def childrenOf (s : TreeState) (node : FileNode) : List FileNode :=
  match lookupKey s.loadedChildren node.id with
  | some cs => cs
  | none => node.children.getD []

/-- The inputs FileRow receives for one node. -/
structure RowView where
  id : String
  name : String
  isFolder : Bool
  isExpanded : Bool
  isLoading : Bool
  hasError : Bool
  isSelected : Bool
  level : Nat
deriving Repr

def renderRow (s : TreeState) (node : FileNode) (level : Nat) : RowView :=
  { id := node.id
    name := node.name
    isFolder := node.type = NodeType.folder
    isExpanded := getFlag s.expanded node.id
    isLoading := getFlag s.loading node.id
    hasError := getFlag s.errors node.id
    isSelected := s.selectedId = some node.id
    level := level }

/-- The child area below a folder row: nothing mounted while collapsed;
skeleton placeholders while loading (four at the top level, two
below); a blank area in the error state or when the chosen child list
is empty; otherwise the chosen children, each rendered one level
deeper. -/
inductive ChildArea where
  | collapsed
  | skeletons (count : Nat)
  | errorBlank
  | blank
  | kids (nodes : List FileNode)

def renderChildArea (s : TreeState) (node : FileNode) (level : Nat) :
    Option ChildArea :=
  if node.type = NodeType.folder then
    some
      (if getFlag s.expanded node.id = false then ChildArea.collapsed
       else if getFlag s.loading node.id then
         ChildArea.skeletons (if level = 0 then 4 else 2)
       else if getFlag s.errors node.id then ChildArea.errorBlank
       else if (childrenOf s node).length > 0 then ChildArea.kids (childrenOf s node)
       else ChildArea.blank)
  else none

/-- The top-level render decision of FileTree: while the initial-loading
flag holds, four skeleton rows and nothing else; otherwise the
recursive rendering rooted at the root node. -/
inductive TopRender where
  | initialSkeletons (count : Nat)
  | tree (root : FileNode)

def renderTop (root : FileNode) (s : TreeState) : TopRender :=
  if s.isInitialLoading then TopRender.initialSkeletons 4 else TopRender.tree root

/-! ## Concrete fixtures used in closed instances -/

def fileA : FileNode := FileNode.mk "a" "a.txt" NodeType.file (some 1) none false

/-- An unloaded folder owning a loader, no static children. -/
def folderF : FileNode :=
  FileNode.mk "f" "guilty-egret" NodeType.folder none none true

/-- A folder owning both a static child list and a loader. -/
def folderG : FileNode :=
  FileNode.mk "g" "mixed" NodeType.folder none (some [fileA]) true

/-- A loaderless root whose static children hold the test folders. -/
def staticRoot : FileNode :=
  FileNode.mk "r" "static-root" NodeType.folder none (some [folderF, folderG]) false

/-- A root owning a loader, as mounted by the application. -/
def loaderRoot : FileNode :=
  FileNode.mk "root" "liable-owl" NodeType.folder none none true

/-! ## Basic lemmas about the map and multiset helpers -/

theorem lookupKey_setKey_same {α : Type} (m : List (String × α)) (id : String)
    (v : α) : lookupKey (setKey m id v) id = some v := by
  simp [setKey, lookupKey]

theorem lookupKey_setKey_ne {α : Type} (m : List (String × α)) (id j : String)
    (v : α) (h : id ≠ j) : lookupKey (setKey m id v) j = lookupKey m j := by
  simp [setKey, lookupKey, h]

theorem getFlag_setKey_same (m : List (String × Bool)) (id : String) (v : Bool) :
    getFlag (setKey m id v) id = v := by
  simp [getFlag, lookupKey_setKey_same]

theorem getFlag_setKey_ne (m : List (String × Bool)) (id j : String) (v : Bool)
    (h : id ≠ j) : getFlag (setKey m id v) j = getFlag m j := by
  simp [getFlag, lookupKey_setKey_ne m id j v h]

theorem countId_append (l1 l2 : List String) (id : String) :
    countId (l1 ++ l2) id = countId l1 id + countId l2 id := by
  induction l1 with
  | nil => simp [countId]
  | cons x rest ih => simp [countId, ih]; omega

theorem countId_removeOne_ne (l : List String) (id j : String) (h : id ≠ j) :
    countId (removeOne l id) j = countId l j := by
  induction l with
  | nil => simp [removeOne]
  | cons x rest ih =>
      by_cases hx : x = id
      · subst hx
        simp [removeOne, countId, h]
      · simp [removeOne, hx, countId, ih]

theorem countId_single_ne (id j : String) (h : id ≠ j) :
    countId [id] j = 0 := by
  simp [countId, h]

theorem countId_single_same (id : String) : countId [id] id = 1 := by
  simp [countId]

/-! ## Field-level effect lemmas for the controller operations -/

theorem loadNodeChildren_loadedChildren (node : FileNode) (s : TreeState) :
    (loadNodeChildren node s).loadedChildren = s.loadedChildren := by
  unfold loadNodeChildren; split <;> rfl

theorem loadNodeChildren_expanded (node : FileNode) (s : TreeState) :
    (loadNodeChildren node s).expanded = s.expanded := by
  unfold loadNodeChildren; split <;> rfl

theorem loadNodeChildren_isInitialLoading (node : FileNode) (s : TreeState) :
    (loadNodeChildren node s).isInitialLoading = s.isInitialLoading := by
  unfold loadNodeChildren; split <;> rfl

theorem loadNodeChildren_selectedId (node : FileNode) (s : TreeState) :
    (loadNodeChildren node s).selectedId = s.selectedId := by
  unfold loadNodeChildren; split <;> rfl

theorem loadNodeChildren_of_hasLoader (node : FileNode) (s : TreeState)
    (h : node.hasLoader = true) :
    loadNodeChildren node s =
      { s with
        loading := setKey s.loading node.id true
        errors := setKey s.errors node.id false
        pending := s.pending ++ [node.id]
        fetchLog := s.fetchLog ++ [node.id] } := by
  unfold loadNodeChildren; simp [h]

theorem handleToggle_expanded (node : FileNode) (s : TreeState) :
    (handleToggle node s).expanded =
      setKey s.expanded node.id (! getFlag s.expanded node.id) := by
  unfold handleToggle
  by_cases he : getFlag s.expanded node.id <;>
    by_cases hl : node.hasLoader <;>
      by_cases hc : (lookupKey s.loadedChildren node.id).isNone <;>
        simp [he, hl, hc, loadNodeChildren_expanded]

theorem handleToggle_loadedChildren (node : FileNode) (s : TreeState) :
    (handleToggle node s).loadedChildren = s.loadedChildren := by
  unfold handleToggle
  by_cases he : getFlag s.expanded node.id <;>
    by_cases hl : node.hasLoader <;>
      by_cases hc : (lookupKey s.loadedChildren node.id).isNone <;>
        simp [he, hl, hc, loadNodeChildren_loadedChildren]

theorem handleToggle_isInitialLoading (node : FileNode) (s : TreeState) :
    (handleToggle node s).isInitialLoading = s.isInitialLoading := by
  unfold handleToggle
  by_cases he : getFlag s.expanded node.id <;>
    by_cases hl : node.hasLoader <;>
      by_cases hc : (lookupKey s.loadedChildren node.id).isNone <;>
        simp [he, hl, hc, loadNodeChildren_isInitialLoading]

theorem handleToggle_selectedId (node : FileNode) (s : TreeState) :
    (handleToggle node s).selectedId = s.selectedId := by
  unfold handleToggle
  by_cases he : getFlag s.expanded node.id <;>
    by_cases hl : node.hasLoader <;>
      by_cases hc : (lookupKey s.loadedChildren node.id).isNone <;>
        simp [he, hl, hc, loadNodeChildren_selectedId]

/-- Either a toggle starts no load (pending, fetchLog, loading, errors all
unchanged), or it starts exactly one load of its own node, and then the
node owns a loader, its cache entry was absent, and the node was
collapsed before the toggle. -/
theorem handleToggle_fetch_cases (node : FileNode) (s : TreeState) :
    ((handleToggle node s).pending = s.pending ∧
     (handleToggle node s).fetchLog = s.fetchLog ∧
     (handleToggle node s).loading = s.loading ∧
     (handleToggle node s).errors = s.errors) ∨
    ((handleToggle node s).pending = s.pending ++ [node.id] ∧
     (handleToggle node s).fetchLog = s.fetchLog ++ [node.id] ∧
     (handleToggle node s).loading = setKey s.loading node.id true ∧
     (handleToggle node s).errors = setKey s.errors node.id false ∧
     node.hasLoader = true ∧
     lookupKey s.loadedChildren node.id = none ∧
     getFlag s.expanded node.id = false) := by
  unfold handleToggle
  by_cases he : getFlag s.expanded node.id
  · left; simp [he]
  · by_cases hl : node.hasLoader
    · by_cases hc : (lookupKey s.loadedChildren node.id).isNone
      · right
        simp [he, hl, hc, loadNodeChildren_of_hasLoader node s hl]
        exact Option.isNone_iff_eq_none.mp hc
      · left; simp [he, hl, hc]
    · left; simp [he, hl]

theorem handleClick_of_file (node : FileNode) (s : TreeState)
    (h : node.type = NodeType.file) :
    handleClick node s = handleSelect node s := by
  unfold handleClick
  simp [h]

theorem handleClick_of_folder (node : FileNode) (s : TreeState)
    (h : node.type = NodeType.folder) :
    handleClick node s = handleSelect node (handleToggle node s) := by
  unfold handleClick
  simp [h]

theorem settleFetch_noop (rootId id : String) (outcome : FetchOutcome)
    (s : TreeState) (h : countId s.pending id = 0) :
    settleFetch rootId id outcome s = s := by
  unfold settleFetch; simp [h]

theorem settleFetch_ok (rootId id : String) (cs : List FileNode) (s : TreeState)
    (h : countId s.pending id ≠ 0) :
    settleFetch rootId id (FetchOutcome.ok cs) s =
      { s with
        pending := removeOne s.pending id
        loadedChildren := setKey s.loadedChildren id cs
        isInitialLoading := if id = rootId then false else s.isInitialLoading
        loading := setKey s.loading id false } := by
  unfold settleFetch
  rw [if_neg h]
  by_cases hr : id = rootId <;> simp [hr]

theorem settleFetch_error (rootId id : String) (s : TreeState)
    (h : countId s.pending id ≠ 0) :
    settleFetch rootId id FetchOutcome.error s =
      { s with
        pending := removeOne s.pending id
        errors := setKey s.errors id true
        loading := setKey s.loading id false } := by
  unfold settleFetch
  simp [h]

/-- Toggling an expanded node only collapses it: no other field moves. -/
theorem handleToggle_collapse (n : FileNode) (s : TreeState)
    (hexp : getFlag s.expanded n.id = true) :
    handleToggle n s = { s with expanded := setKey s.expanded n.id false } := by
  unfold handleToggle
  simp [hexp]

/-- Toggling a collapsed node that owns a loader and has no cache entry
expands it and starts exactly one load. -/
theorem handleToggle_expand_fetch (n : FileNode) (s : TreeState)
    (hl : n.hasLoader = true)
    (hcache : lookupKey s.loadedChildren n.id = none)
    (hexp : getFlag s.expanded n.id = false) :
    handleToggle n s =
      { s with
        expanded := setKey s.expanded n.id true
        loading := setKey s.loading n.id true
        errors := setKey s.errors n.id false
        pending := s.pending ++ [n.id]
        fetchLog := s.fetchLog ++ [n.id] } := by
  unfold handleToggle
  simp [hexp, hl, hcache, loadNodeChildren_of_hasLoader n s hl]

/-- Toggling a collapsed node whose cache entry is present expands it
without starting a load. -/
theorem handleToggle_expand_cached (n : FileNode) (s : TreeState)
    (hcache : (lookupKey s.loadedChildren n.id).isSome = true)
    (hexp : getFlag s.expanded n.id = false) :
    handleToggle n s = { s with expanded := setKey s.expanded n.id true } := by
  unfold handleToggle
  have hnone : (lookupKey s.loadedChildren n.id).isNone = false := by
    rw [Option.isNone_eq_false_iff]
    exact hcache
  by_cases hl : n.hasLoader <;> simp [hexp, hl, hnone]

/-! ## Stability lemmas over single events and whole traces -/

/-- A toggle with a populated cache entry for id and no in-flight call
for id keeps all three: the entry, quiescence, and the loader count. -/
theorem handleToggle_cache_stable (id : String) (cs : List FileNode)
    (n : FileNode) (s : TreeState)
    (hc : lookupKey s.loadedChildren id = some cs)
    (hp : countId s.pending id = 0) :
    lookupKey (handleToggle n s).loadedChildren id = some cs ∧
    countId (handleToggle n s).pending id = 0 ∧
    countId (handleToggle n s).fetchLog id = countId s.fetchLog id := by
  refine ⟨by rw [handleToggle_loadedChildren]; exact hc, ?_⟩
  rcases handleToggle_fetch_cases n s with ⟨h1, h2, _, _⟩ | ⟨h1, h2, _, _, _, hnone, _⟩
  · rw [h1, h2]; exact ⟨hp, rfl⟩
  · have hne : n.id ≠ id := by
      intro hEq
      rw [hEq, hc] at hnone
      exact Option.noConfusion hnone
    rw [h1, h2, countId_append, countId_append, countId_single_ne n.id id hne]
    exact ⟨by omega, rfl⟩

/-- One event after a populated, quiescent cache entry: the entry
survives unchanged, no call for the id is in flight afterwards, and the
loader of the id is not invoked. -/
theorem stepEvent_cache_stable (rootId id : String) (cs : List FileNode)
    (s : TreeState) (e : TreeEvent)
    (hc : lookupKey s.loadedChildren id = some cs)
    (hp : countId s.pending id = 0) :
    lookupKey (stepEvent rootId s e).loadedChildren id = some cs ∧
    countId (stepEvent rootId s e).pending id = 0 ∧
    countId (stepEvent rootId s e).fetchLog id = countId s.fetchLog id := by
  cases e with
  | toggle n => exact handleToggle_cache_stable id cs n s hc hp
  | select n => exact ⟨hc, hp, rfl⟩
  | click n =>
      simp only [stepEvent]
      cases ht : n.type with
      | file =>
          rw [handleClick_of_file n s ht]
          exact ⟨hc, hp, rfl⟩
      | folder =>
          rw [handleClick_of_folder n s ht]
          exact handleToggle_cache_stable id cs n s hc hp
  | settle j outcome =>
      simp only [stepEvent]
      by_cases hz : countId s.pending j = 0
      · rw [settleFetch_noop rootId j outcome s hz]
        exact ⟨hc, hp, rfl⟩
      · have hne : j ≠ id := by
          intro hEq
          rw [hEq, hp] at hz
          exact hz rfl
        cases outcome with
        | ok cs' =>
            rw [settleFetch_ok rootId j cs' s hz]
            exact ⟨by rw [lookupKey_setKey_ne _ _ _ _ hne]; exact hc,
                   by rw [countId_removeOne_ne _ _ _ hne]; exact hp, rfl⟩
        | error =>
            rw [settleFetch_error rootId j s hz]
            exact ⟨hc, by rw [countId_removeOne_ne _ _ _ hne]; exact hp, rfl⟩

/-- Trace form: once a cache entry is populated and its id quiescent, no
sequence of later events removes or overwrites it, re-enters a pending
call for it, or invokes its loader again. -/
theorem runEvents_cache_stable (rootId id : String) (cs : List FileNode)
    (s : TreeState) (es : List TreeEvent)
    (hc : lookupKey s.loadedChildren id = some cs)
    (hp : countId s.pending id = 0) :
    lookupKey (runEvents rootId s es).loadedChildren id = some cs ∧
    countId (runEvents rootId s es).pending id = 0 ∧
    countId (runEvents rootId s es).fetchLog id = countId s.fetchLog id := by
  induction es generalizing s with
  | nil => exact ⟨hc, hp, rfl⟩
  | cons e es ih =>
      obtain ⟨h1, h2, h3⟩ := stepEvent_cache_stable rootId id cs s e hc hp
      obtain ⟨g1, g2, g3⟩ := ih (stepEvent rootId s e) h1 h2
      exact ⟨g1, g2, by rw [show runEvents rootId s (e :: es) =
        runEvents rootId (stepEvent rootId s e) es from rfl, g3, h3]⟩

/-- A cache entry present for an id stays present after any one event
(no code path ever deletes a key of loadedChildren). -/
theorem stepEvent_cacheSome_stable (rootId id : String) (s : TreeState)
    (e : TreeEvent)
    (hc : (lookupKey s.loadedChildren id).isSome = true) :
    (lookupKey (stepEvent rootId s e).loadedChildren id).isSome = true := by
  cases e with
  | toggle n =>
      show (lookupKey (handleToggle n s).loadedChildren id).isSome = true
      rw [handleToggle_loadedChildren]; exact hc
  | select n => exact hc
  | click n =>
      cases ht : n.type with
      | file =>
          show (lookupKey (handleClick n s).loadedChildren id).isSome = true
          rw [handleClick_of_file n s ht]; exact hc
      | folder =>
          show (lookupKey (handleClick n s).loadedChildren id).isSome = true
          rw [handleClick_of_folder n s ht]
          show (lookupKey (handleToggle n s).loadedChildren id).isSome = true
          rw [handleToggle_loadedChildren]; exact hc
  | settle j outcome =>
      show (lookupKey (settleFetch rootId j outcome s).loadedChildren id).isSome = true
      by_cases hz : countId s.pending j = 0
      · rw [settleFetch_noop rootId j outcome s hz]; exact hc
      · cases outcome with
        | ok cs' =>
            rw [settleFetch_ok rootId j cs' s hz]
            by_cases hj : j = id
            · subst hj
              rw [lookupKey_setKey_same]
              rfl
            · rw [lookupKey_setKey_ne _ _ _ _ hj]; exact hc
        | error =>
            rw [settleFetch_error rootId j s hz]; exact hc

/-- Trace form of cache-key persistence. -/
theorem runEvents_cacheSome_stable (rootId id : String) (s : TreeState)
    (es : List TreeEvent)
    (hc : (lookupKey s.loadedChildren id).isSome = true) :
    (lookupKey (runEvents rootId s es).loadedChildren id).isSome = true := by
  induction es generalizing s with
  | nil => exact hc
  | cons e es ih => exact ih (stepEvent rootId s e) (stepEvent_cacheSome_stable rootId id s e hc)

/-- Any event other than a successful settle for the root id leaves the
initial-loading flag unchanged. -/
theorem stepEvent_initialLoading_preserved (rootId : String) (s : TreeState)
    (e : TreeEvent) (h : isRootSuccess rootId e = false) :
    (stepEvent rootId s e).isInitialLoading = s.isInitialLoading := by
  cases e with
  | toggle n => exact handleToggle_isInitialLoading n s
  | select n => rfl
  | click n =>
      cases ht : n.type with
      | file =>
          show (handleClick n s).isInitialLoading = s.isInitialLoading
          rw [handleClick_of_file n s ht]
          rfl
      | folder =>
          show (handleClick n s).isInitialLoading = s.isInitialLoading
          rw [handleClick_of_folder n s ht]
          exact handleToggle_isInitialLoading n s
  | settle j outcome =>
      show (settleFetch rootId j outcome s).isInitialLoading = s.isInitialLoading
      by_cases hz : countId s.pending j = 0
      · rw [settleFetch_noop rootId j outcome s hz]
      · cases outcome with
        | ok cs' =>
            have hne : j ≠ rootId := by
              intro hEq
              rw [isRootSuccess, hEq] at h
              simp at h
            rw [settleFetch_ok rootId j cs' s hz]
            simp [hne]
        | error => rw [settleFetch_error rootId j s hz]

/-- Trace form: while no successful settle for the root id occurs, the
initial-loading flag keeps its value. -/
theorem runEvents_initialLoading_preserved (rootId : String) (s : TreeState)
    (es : List TreeEvent) (h : ∀ e ∈ es, isRootSuccess rootId e = false) :
    (runEvents rootId s es).isInitialLoading = s.isInitialLoading := by
  induction es generalizing s with
  | nil => rfl
  | cons e es ih =>
      have he := h e (List.mem_cons_self e es)
      have hrec := ih (stepEvent rootId s e) (fun x hx => h x (List.mem_cons_of_mem e hx))
      rw [show runEvents rootId s (e :: es) =
        runEvents rootId (stepEvent rootId s e) es from rfl, hrec,
        stepEvent_initialLoading_preserved rootId s e he]

/-- An event that is neither a toggle nor a click on a folder row never
invokes any loader. -/
theorem stepEvent_fetchLog_preserved (rootId : String) (s : TreeState)
    (e : TreeEvent) (h : canFetch e = false) :
    (stepEvent rootId s e).fetchLog = s.fetchLog := by
  cases e with
  | toggle n => simp [canFetch] at h
  | select n => rfl
  | click n =>
      cases ht : n.type with
      | file =>
          show (handleClick n s).fetchLog = s.fetchLog
          rw [handleClick_of_file n s ht]
          rfl
      | folder =>
          rw [canFetch, ht] at h
          simp at h
  | settle j outcome =>
      show (settleFetch rootId j outcome s).fetchLog = s.fetchLog
      by_cases hz : countId s.pending j = 0
      · rw [settleFetch_noop rootId j outcome s hz]
      · cases outcome with
        | ok cs' => rw [settleFetch_ok rootId j cs' s hz]
        | error => rw [settleFetch_error rootId j s hz]

/-- Trace form: a trace free of toggles and folder clicks invokes no
loader at all. -/
theorem runEvents_fetchLog_preserved (rootId : String) (s : TreeState)
    (es : List TreeEvent) (h : ∀ e ∈ es, canFetch e = false) :
    (runEvents rootId s es).fetchLog = s.fetchLog := by
  induction es generalizing s with
  | nil => rfl
  | cons e es ih =>
      have he := h e (List.mem_cons_self e es)
      have hrec := ih (stepEvent rootId s e) (fun x hx => h x (List.mem_cons_of_mem e hx))
      rw [show runEvents rootId s (e :: es) =
        runEvents rootId (stepEvent rootId s e) es from rfl, hrec,
        stepEvent_fetchLog_preserved rootId s e he]

/-- Mount with a root loader: root expanded, initial loading set, one
in-flight root call, exactly one loader invocation so far. -/
theorem mountTree_of_hasLoader (root : FileNode) (h : root.hasLoader = true) :
    mountTree root =
      { expanded := [(root.id, true)]
        loadedChildren := []
        loading := [(root.id, true)]
        errors := [(root.id, false)]
        selectedId := none
        isInitialLoading := true
        pending := [root.id]
        fetchLog := [root.id] } := by
  unfold mountTree loadNodeChildren setKey
  simp [h]

/-- Mount without a root loader: everything empty and quiet. -/
theorem mountTree_of_no_loader (root : FileNode) (h : root.hasLoader = false) :
    mountTree root =
      { expanded := []
        loadedChildren := []
        loading := []
        errors := []
        selectedId := none
        isInitialLoading := false
        pending := []
        fetchLog := [] } := by
  unfold mountTree loadNodeChildren
  simp [h]


/-- Repeated row clicks on a file node only move the selection: the
expansion map, cache, flags, and loader log are untouched. -/
theorem clickN_file_fields (node : FileNode) (h : node.type = NodeType.file) :
    ∀ (k : Nat) (s : TreeState),
      (clickN node k s).expanded = s.expanded ∧
      (clickN node k s).fetchLog = s.fetchLog ∧
      (clickN node k s).loadedChildren = s.loadedChildren ∧
      (clickN node k s).loading = s.loading ∧
      (clickN node k s).errors = s.errors ∧
      (0 < k → (clickN node k s).selectedId = some node.id) := by
  intro k
  induction k with
  | zero => intro s; exact ⟨rfl, rfl, rfl, rfl, rfl, fun h0 => absurd h0 (by omega)⟩
  | succ k ih =>
      intro s
      have hstep : clickN node (k + 1) s = clickN node k (handleSelect node s) := by
        rw [show clickN node (k + 1) s = clickN node k (handleClick node s) from rfl,
          handleClick_of_file node s h]
      obtain ⟨e1, e2, e3, e4, e5, e6⟩ := ih (handleSelect node s)
      rw [hstep]
      refine ⟨e1, e2, e3, e4, e5, fun _ => ?_⟩
      cases k with
      | zero => rfl
      | succ m => exact e6 (by omega)

/-! ## Claims -/

/-- C1: the claim says two rapid toggles on the same unloaded folder
never put two loader calls in flight at once.  The code's gate checks
only that the cache entry is absent, never the loading flag, so the
trace toggle-toggle-toggle on an unloaded folder (expand, collapse,
expand again before the first call settles) leaves two concurrent calls
in flight and two loader invocations.  This theorem evaluates the code
at that failing input. -/
theorem doubleToggle_starts_two_concurrent_fetches :
    countId (runEvents "r" (mountTree staticRoot)
      [TreeEvent.toggle folderF, TreeEvent.toggle folderF,
       TreeEvent.toggle folderF]).pending "f" = 2 ∧
    countId (runEvents "r" (mountTree staticRoot)
      [TreeEvent.toggle folderF, TreeEvent.toggle folderF,
       TreeEvent.toggle folderF]).fetchLog "f" = 2 :=
  ⟨rfl, rfl⟩

/-- C2: every loader call first sets the node's loading flag and clears
its error flag; a resolving call writes the resolved children into the
node's cache entry and clears loading; a rejecting call sets the error
flag, clears loading, and leaves the cache entry exactly as it was (in
particular absent if it was absent). -/
theorem fetch_lifecycle (rootId : String) (node : FileNode) (s : TreeState)
    (h : node.hasLoader = true) :
    getFlag (loadNodeChildren node s).loading node.id = true ∧
    getFlag (loadNodeChildren node s).errors node.id = false ∧
    (∀ cs,
      lookupKey (settleFetch rootId node.id (FetchOutcome.ok cs)
          (loadNodeChildren node s)).loadedChildren node.id = some cs ∧
      getFlag (settleFetch rootId node.id (FetchOutcome.ok cs)
          (loadNodeChildren node s)).loading node.id = false) ∧
    (getFlag (settleFetch rootId node.id FetchOutcome.error
        (loadNodeChildren node s)).errors node.id = true ∧
     getFlag (settleFetch rootId node.id FetchOutcome.error
        (loadNodeChildren node s)).loading node.id = false ∧
     lookupKey (settleFetch rootId node.id FetchOutcome.error
        (loadNodeChildren node s)).loadedChildren node.id =
       lookupKey s.loadedChildren node.id) := by
  rw [loadNodeChildren_of_hasLoader node s h]
  have hpend : countId (s.pending ++ [node.id]) node.id ≠ 0 := by
    rw [countId_append, countId_single_same]
    omega
  refine ⟨getFlag_setKey_same s.loading node.id true,
          getFlag_setKey_same s.errors node.id false, ?_, ?_⟩
  · intro cs
    rw [settleFetch_ok rootId node.id cs _ hpend]
    exact ⟨lookupKey_setKey_same _ node.id cs, getFlag_setKey_same _ node.id false⟩
  · rw [settleFetch_error rootId node.id _ hpend]
    exact ⟨getFlag_setKey_same _ node.id true, getFlag_setKey_same _ node.id false, rfl⟩

/-- Witness for C2 on the concrete unloaded folder of the fixture
tree, with a resolving call delivering one file and a rejecting call. -/
theorem fetch_lifecycle_instance :
    folderF.hasLoader = true ∧
    getFlag (loadNodeChildren folderF (mountTree staticRoot)).loading "f" = true ∧
    getFlag (loadNodeChildren folderF (mountTree staticRoot)).errors "f" = false ∧
    lookupKey (settleFetch "r" "f" (FetchOutcome.ok [fileA])
      (loadNodeChildren folderF (mountTree staticRoot))).loadedChildren "f" = some [fileA] ∧
    getFlag (settleFetch "r" "f" FetchOutcome.error
      (loadNodeChildren folderF (mountTree staticRoot))).errors "f" = true :=
  ⟨rfl,
   (fetch_lifecycle "r" folderF (mountTree staticRoot) rfl).1,
   (fetch_lifecycle "r" folderF (mountTree staticRoot) rfl).2.1,
   ((fetch_lifecycle "r" folderF (mountTree staticRoot) rfl).2.2.1 [fileA]).1,
   (fetch_lifecycle "r" folderF (mountTree staticRoot) rfl).2.2.2.1⟩

/-- C3 counterexample: a cache entry populated by a successful fetch is
later overwritten.  Rapid toggles leave a second loader call in flight
for the same node; the first settles and populates the cache with one
file, the second then settles and overwrites the entry with an empty
list — so "once populated, never overwritten for the lifetime of the
mount" is false for the code as written. -/
theorem cache_overwritten_by_stale_duplicate :
    lookupKey (runEvents "r" (mountTree staticRoot)
        [TreeEvent.toggle folderF, TreeEvent.toggle folderF, TreeEvent.toggle folderF,
         TreeEvent.settle "f" (FetchOutcome.ok [fileA])]).loadedChildren "f" =
      some [fileA] ∧
    lookupKey (runEvents "r" (mountTree staticRoot)
        [TreeEvent.toggle folderF, TreeEvent.toggle folderF, TreeEvent.toggle folderF,
         TreeEvent.settle "f" (FetchOutcome.ok [fileA]),
         TreeEvent.settle "f" (FetchOutcome.ok [])]).loadedChildren "f" =
      some [] :=
  ⟨rfl, rfl⟩

/-- C3 amended: once a node's cache entry is populated and no duplicate
loader call for that node is still in flight, the entry survives every
later event sequence unchanged — never removed, never overwritten — and
the node's loader is never invoked again (in particular no toggle
re-fetches it).  The original claim fails only through a duplicate call
already in flight at population time, which the unguarded toggle gate
makes possible. -/
theorem cache_permanent_once_quiescent (rootId id : String)
    (cs : List FileNode) (s : TreeState) (es : List TreeEvent)
    (hc : lookupKey s.loadedChildren id = some cs)
    (hp : countId s.pending id = 0) :
    lookupKey (runEvents rootId s es).loadedChildren id = some cs ∧
    countId (runEvents rootId s es).fetchLog id = countId s.fetchLog id :=
  ⟨(runEvents_cache_stable rootId id cs s es hc hp).1,
   (runEvents_cache_stable rootId id cs s es hc hp).2.2⟩

/-- Witness for the amended C3: after one clean expand-and-settle of the
fixture folder, four further toggle and selection events leave the
cached entry intact and the loader count unchanged. -/
theorem cache_permanent_once_quiescent_instance :
    (lookupKey (runEvents "r" (mountTree staticRoot)
        [TreeEvent.toggle folderF, TreeEvent.settle "f" (FetchOutcome.ok [fileA])]).loadedChildren "f" =
      some [fileA] ∧
     countId (runEvents "r" (mountTree staticRoot)
        [TreeEvent.toggle folderF, TreeEvent.settle "f" (FetchOutcome.ok [fileA])]).pending "f" = 0) ∧
    (lookupKey (runEvents "r"
        (runEvents "r" (mountTree staticRoot)
          [TreeEvent.toggle folderF, TreeEvent.settle "f" (FetchOutcome.ok [fileA])])
        [TreeEvent.toggle folderF, TreeEvent.toggle folderF,
         TreeEvent.select fileA, TreeEvent.toggle folderF]).loadedChildren "f" =
      some [fileA] ∧
     countId (runEvents "r"
        (runEvents "r" (mountTree staticRoot)
          [TreeEvent.toggle folderF, TreeEvent.settle "f" (FetchOutcome.ok [fileA])])
        [TreeEvent.toggle folderF, TreeEvent.toggle folderF,
         TreeEvent.select fileA, TreeEvent.toggle folderF]).fetchLog "f" =
      countId (runEvents "r" (mountTree staticRoot)
        [TreeEvent.toggle folderF, TreeEvent.settle "f" (FetchOutcome.ok [fileA])]).fetchLog "f") :=
  ⟨⟨rfl, rfl⟩,
   cache_permanent_once_quiescent "r" "f" [fileA]
     (runEvents "r" (mountTree staticRoot)
       [TreeEvent.toggle folderF, TreeEvent.settle "f" (FetchOutcome.ok [fileA])])
     [TreeEvent.toggle folderF, TreeEvent.toggle folderF,
      TreeEvent.select fileA, TreeEvent.toggle folderF] rfl rfl⟩

/-- C4: on a folder whose fetch failed (error flag set, cache absent,
row still expanded), a collapse-then-expand cycle invokes the loader
exactly once more, and the new attempt clears the error flag and raises
the loading flag as it starts; the row ends expanded. -/
theorem retry_after_error (n : FileNode) (s : TreeState)
    (htyp : n.type = NodeType.folder)
    (hl : n.hasLoader = true)
    (hcache : lookupKey s.loadedChildren n.id = none)
    (hexp : getFlag s.expanded n.id = true)
    (herr : getFlag s.errors n.id = true) :
    countId (handleToggle n (handleToggle n s)).fetchLog n.id =
      countId s.fetchLog n.id + 1 ∧
    getFlag (handleToggle n (handleToggle n s)).errors n.id = false ∧
    getFlag (handleToggle n (handleToggle n s)).loading n.id = true ∧
    getFlag (handleToggle n (handleToggle n s)).expanded n.id = true := by
  rw [handleToggle_collapse n s hexp]
  rw [handleToggle_expand_fetch n
    { s with expanded := setKey s.expanded n.id false } hl hcache
    (getFlag_setKey_same s.expanded n.id false)]
  refine ⟨?_, ?_, ?_, ?_⟩
  · rw [countId_append, countId_single_same]
  · exact getFlag_setKey_same _ n.id false
  · exact getFlag_setKey_same _ n.id true
  · exact getFlag_setKey_same _ n.id true

/-- Witness for C4: the fixture folder is expanded, its fetch fails,
and the collapse-then-expand cycle fires exactly one new load. -/
theorem retry_after_error_instance :
    (folderF.type = NodeType.folder ∧ folderF.hasLoader = true ∧
     lookupKey (runEvents "r" (mountTree staticRoot)
       [TreeEvent.toggle folderF, TreeEvent.settle "f" FetchOutcome.error]).loadedChildren "f" = none ∧
     getFlag (runEvents "r" (mountTree staticRoot)
       [TreeEvent.toggle folderF, TreeEvent.settle "f" FetchOutcome.error]).expanded "f" = true ∧
     getFlag (runEvents "r" (mountTree staticRoot)
       [TreeEvent.toggle folderF, TreeEvent.settle "f" FetchOutcome.error]).errors "f" = true) ∧
    (countId (handleToggle folderF (handleToggle folderF
        (runEvents "r" (mountTree staticRoot)
          [TreeEvent.toggle folderF, TreeEvent.settle "f" FetchOutcome.error]))).fetchLog "f" =
      countId (runEvents "r" (mountTree staticRoot)
        [TreeEvent.toggle folderF, TreeEvent.settle "f" FetchOutcome.error]).fetchLog "f" + 1 ∧
     getFlag (handleToggle folderF (handleToggle folderF
        (runEvents "r" (mountTree staticRoot)
          [TreeEvent.toggle folderF, TreeEvent.settle "f" FetchOutcome.error]))).errors "f" = false ∧
     getFlag (handleToggle folderF (handleToggle folderF
        (runEvents "r" (mountTree staticRoot)
          [TreeEvent.toggle folderF, TreeEvent.settle "f" FetchOutcome.error]))).loading "f" = true ∧
     getFlag (handleToggle folderF (handleToggle folderF
        (runEvents "r" (mountTree staticRoot)
          [TreeEvent.toggle folderF, TreeEvent.settle "f" FetchOutcome.error]))).expanded "f" = true) :=
  ⟨⟨rfl, rfl, rfl, rfl, rfl⟩,
   retry_after_error folderF
     (runEvents "r" (mountTree staticRoot)
       [TreeEvent.toggle folderF, TreeEvent.settle "f" FetchOutcome.error])
     rfl rfl rfl rfl rfl⟩

/-- C5 counterexample: when the root's initial fetch rejects, the claim
says the tree leaves the global initial-loading state and renders the
root row with its error affordance.  In the code the initial-loading
flag is cleared only in the success path, so after the rejection the
flag is still set, the top-level render still shows the four global
skeleton rows, and the root row (whose error flag was set) is never
rendered. -/
theorem root_rejection_keeps_global_skeletons :
    (stepEvent "root" (mountTree loaderRoot)
        (TreeEvent.settle "root" FetchOutcome.error)).isInitialLoading = true ∧
    renderTop loaderRoot (stepEvent "root" (mountTree loaderRoot)
        (TreeEvent.settle "root" FetchOutcome.error)) = TopRender.initialSkeletons 4 ∧
    getFlag (stepEvent "root" (mountTree loaderRoot)
        (TreeEvent.settle "root" FetchOutcome.error)).errors "root" = true :=
  ⟨rfl, rfl, rfl⟩

/-- C5 amended: a rejected fetch is absorbed by the controller — it only
sets the failing node's error flag and clears its loading flag, leaving
the cache entry, the expansion map, the selection, and every other
node's flags untouched, and the failing row alone shows the error
affordance; but the initial-loading flag is never cleared by a
rejection, so a rejected root fetch leaves the tree in the global
initial-loading state instead of rendering the root row's error
affordance. -/
theorem rejected_fetch_isolated (rootId id : String) (s : TreeState)
    (hp : countId s.pending id ≠ 0) :
    getFlag (settleFetch rootId id FetchOutcome.error s).errors id = true ∧
    getFlag (settleFetch rootId id FetchOutcome.error s).loading id = false ∧
    lookupKey (settleFetch rootId id FetchOutcome.error s).loadedChildren id =
      lookupKey s.loadedChildren id ∧
    (settleFetch rootId id FetchOutcome.error s).isInitialLoading =
      s.isInitialLoading ∧
    (settleFetch rootId id FetchOutcome.error s).expanded = s.expanded ∧
    (settleFetch rootId id FetchOutcome.error s).selectedId = s.selectedId ∧
    (∀ j, id ≠ j →
      getFlag (settleFetch rootId id FetchOutcome.error s).errors j =
        getFlag s.errors j ∧
      getFlag (settleFetch rootId id FetchOutcome.error s).loading j =
        getFlag s.loading j ∧
      lookupKey (settleFetch rootId id FetchOutcome.error s).loadedChildren j =
        lookupKey s.loadedChildren j ∧
      countId (settleFetch rootId id FetchOutcome.error s).fetchLog j =
        countId s.fetchLog j) ∧
    (∀ n lvl, n.id = id →
      (renderRow (settleFetch rootId id FetchOutcome.error s) n lvl).hasError =
        true) := by
  rw [settleFetch_error rootId id s hp]
  refine ⟨getFlag_setKey_same _ id true, getFlag_setKey_same _ id false,
    rfl, rfl, rfl, rfl, ?_, ?_⟩
  · intro j hj
    exact ⟨getFlag_setKey_ne _ id j true hj, getFlag_setKey_ne _ id j false hj,
      rfl, rfl⟩
  · intro n lvl hn
    show getFlag (setKey s.errors id true) n.id = true
    rw [hn]
    exact getFlag_setKey_same _ id true

/-- Witness for the amended C5 on the mounted loader root whose single
in-flight fetch rejects. -/
theorem rejected_fetch_isolated_instance :
    getFlag (settleFetch "root" "root" FetchOutcome.error
      (mountTree loaderRoot)).errors "root" = true ∧
    (settleFetch "root" "root" FetchOutcome.error
      (mountTree loaderRoot)).isInitialLoading =
      (mountTree loaderRoot).isInitialLoading ∧
    getFlag (settleFetch "root" "root" FetchOutcome.error
      (mountTree loaderRoot)).errors "f" =
      getFlag (mountTree loaderRoot).errors "f" ∧
    (renderRow (settleFetch "root" "root" FetchOutcome.error
      (mountTree loaderRoot)) loaderRoot 0).hasError = true :=
  ⟨(rejected_fetch_isolated "root" "root" (mountTree loaderRoot)
      Nat.one_ne_zero).1,
   (rejected_fetch_isolated "root" "root" (mountTree loaderRoot)
      Nat.one_ne_zero).2.2.2.1,
   ((rejected_fetch_isolated "root" "root" (mountTree loaderRoot)
      Nat.one_ne_zero).2.2.2.2.2.2.1 "f" (by decide)).1,
   ((rejected_fetch_isolated "root" "root" (mountTree loaderRoot)
      Nat.one_ne_zero).2.2.2.2.2.2.2 loaderRoot 0 rfl)⟩

/-- C7: a root owning a loader mounts expanded, with exactly one loader
invocation fired by the mount itself (and none added by any trace free
of toggles and folder clicks); the initial-loading flag starts true, is
preserved by every event other than a successful root settle, and is
cleared by a successful root settle.  A root without a loader mounts
collapsed with no fetch and no initial-loading. -/
theorem root_mount_autoload (root : FileNode) :
    (root.hasLoader = true →
      getFlag (mountTree root).expanded root.id = true ∧
      (mountTree root).fetchLog = [root.id] ∧
      (mountTree root).isInitialLoading = true ∧
      (∀ es, (∀ e ∈ es, canFetch e = false) →
        (runEvents root.id (mountTree root) es).fetchLog = [root.id]) ∧
      (∀ s es, (∀ e ∈ es, isRootSuccess root.id e = false) →
        (runEvents root.id s es).isInitialLoading = s.isInitialLoading) ∧
      (∀ s cs, countId s.pending root.id ≠ 0 →
        (settleFetch root.id root.id (FetchOutcome.ok cs) s).isInitialLoading =
          false)) ∧
    (root.hasLoader = false →
      getFlag (mountTree root).expanded root.id = false ∧
      (mountTree root).fetchLog = [] ∧
      (mountTree root).pending = [] ∧
      (mountTree root).isInitialLoading = false) := by
  constructor
  · intro h
    rw [mountTree_of_hasLoader root h]
    refine ⟨getFlag_setKey_same [] root.id true, rfl, rfl, ?_, ?_, ?_⟩
    · intro es hes
      exact runEvents_fetchLog_preserved root.id _ es hes
    · intro s es hes
      exact runEvents_initialLoading_preserved root.id s es hes
    · intro s cs hp
      rw [settleFetch_ok root.id root.id cs s hp]
      simp
  · intro h
    rw [mountTree_of_no_loader root h]
    exact ⟨rfl, rfl, rfl, rfl⟩

/-- Witness for C7: the application root with a loader, and the
loaderless fixture root. -/
theorem root_mount_autoload_instance :
    getFlag (mountTree loaderRoot).expanded "root" = true ∧
    (mountTree loaderRoot).fetchLog = ["root"] ∧
    (mountTree loaderRoot).isInitialLoading = true ∧
    (runEvents "root" (mountTree loaderRoot)
      [TreeEvent.settle "root" FetchOutcome.error]).fetchLog = ["root"] ∧
    (runEvents "root" (mountTree loaderRoot)
      [TreeEvent.settle "root" FetchOutcome.error]).isInitialLoading =
      (mountTree loaderRoot).isInitialLoading ∧
    (settleFetch "root" "root" (FetchOutcome.ok [])
      (mountTree loaderRoot)).isInitialLoading = false ∧
    getFlag (mountTree staticRoot).expanded "r" = false ∧
    (mountTree staticRoot).fetchLog = [] :=
  ⟨((root_mount_autoload loaderRoot).1 rfl).1,
   ((root_mount_autoload loaderRoot).1 rfl).2.1,
   ((root_mount_autoload loaderRoot).1 rfl).2.2.1,
   ((root_mount_autoload loaderRoot).1 rfl).2.2.2.1
     [TreeEvent.settle "root" FetchOutcome.error]
     (by
       intro e he
       cases he with
       | head => rfl
       | tail _ h2 => cases h2),
   ((root_mount_autoload loaderRoot).1 rfl).2.2.2.2.1 (mountTree loaderRoot)
     [TreeEvent.settle "root" FetchOutcome.error]
     (by
       intro e he
       cases he with
       | head => rfl
       | tail _ h2 => cases h2),
   ((root_mount_autoload loaderRoot).1 rfl).2.2.2.2.2 (mountTree loaderRoot) []
     Nat.one_ne_zero,
   ((root_mount_autoload staticRoot).2 rfl).1,
   ((root_mount_autoload staticRoot).2 rfl).2.1⟩

/-- C8: clicking the row of a file node, any number of times, only
moves the selection — the expansion map, loader log, cache, and flags
are untouched (a file click reduces to handleSelect alone); clicking
the row of a folder node performs the toggle and then the selection. -/
theorem row_click_effects (node : FileNode) (s : TreeState) (k : Nat) :
    (node.type = NodeType.file →
      handleClick node s = handleSelect node s ∧
      (clickN node k s).expanded = s.expanded ∧
      (clickN node k s).fetchLog = s.fetchLog ∧
      (clickN node k s).loadedChildren = s.loadedChildren ∧
      (clickN node k s).loading = s.loading ∧
      (clickN node k s).errors = s.errors ∧
      (0 < k → (clickN node k s).selectedId = some node.id)) ∧
    (node.type = NodeType.folder →
      handleClick node s = handleSelect node (handleToggle node s)) := by
  constructor
  · intro h
    obtain ⟨e1, e2, e3, e4, e5, e6⟩ := clickN_file_fields node h k s
    exact ⟨handleClick_of_file node s h, e1, e2, e3, e4, e5, e6⟩
  · intro h
    exact handleClick_of_folder node s h

/-- Witness for C8: three clicks on the fixture file, one click on the
fixture folder. -/
theorem row_click_effects_instance :
    (clickN fileA 3 (mountTree staticRoot)).expanded =
      (mountTree staticRoot).expanded ∧
    (clickN fileA 3 (mountTree staticRoot)).fetchLog =
      (mountTree staticRoot).fetchLog ∧
    (clickN fileA 3 (mountTree staticRoot)).selectedId = some "a" ∧
    handleClick folderF (mountTree staticRoot) =
      handleSelect folderF (handleToggle folderF (mountTree staticRoot)) :=
  ⟨((row_click_effects fileA (mountTree staticRoot) 3).1 rfl).2.1,
   ((row_click_effects fileA (mountTree staticRoot) 3).1 rfl).2.2.1,
   ((row_click_effects fileA (mountTree staticRoot) 3).1 rfl).2.2.2.2.2.2
     (by omega),
   (row_click_effects folderF (mountTree staticRoot) 0).2 rfl⟩

/-- C9: for every node and every starting state, toggling twice in
succession restores the node's expansion flag to its original value and
appends at most one entry to the loader log in total. -/
theorem double_toggle_restores (node : FileNode) (s : TreeState) :
    getFlag (handleToggle node (handleToggle node s)).expanded node.id =
      getFlag s.expanded node.id ∧
    (handleToggle node (handleToggle node s)).fetchLog.length ≤
      s.fetchLog.length + 1 := by
  constructor
  · rw [handleToggle_expanded node (handleToggle node s), getFlag_setKey_same,
      handleToggle_expanded node s, getFlag_setKey_same, Bool.not_not]
  · rcases handleToggle_fetch_cases node s with ⟨_, h2, _, _⟩ | ⟨_, h2, _, _, _, _, hexp⟩
    · rcases handleToggle_fetch_cases node (handleToggle node s) with
        ⟨_, g2, _, _⟩ | ⟨_, g2, _, _, _, _, _⟩
      · rw [g2, h2]; omega
      · rw [g2, h2]; simp
    · rcases handleToggle_fetch_cases node (handleToggle node s) with
        ⟨_, g2, _, _⟩ | ⟨_, g2, _, _, _, _, gexp⟩
      · rw [g2, h2]; simp
      · exfalso
        rw [handleToggle_expanded node s] at gexp
        rw [getFlag_setKey_same] at gexp
        rw [hexp] at gexp
        simp at gexp

/-- C10: the children used for rendering a folder are the cache entry
when present, else the static child list, else none; the rendered child
area of an expanded, non-loading, non-error folder is exactly that
list; expanding a collapsed folder that owns a loader fires a fetch
even when a static child list exists (the gate ignores it); and once a
cache entry exists it exists at every later state, so rendering draws
from the cache and never falls back to the static list again. -/
theorem render_children_selection (rootId : String) (s : TreeState)
    (node : FileNode) (es : List TreeEvent) :
    (∀ cs, lookupKey s.loadedChildren node.id = some cs →
      childrenOf s node = cs) ∧
    (lookupKey s.loadedChildren node.id = none →
      childrenOf s node = node.children.getD []) ∧
    (∀ lvl, node.type = NodeType.folder →
      getFlag s.expanded node.id = true →
      getFlag s.loading node.id = false →
      getFlag s.errors node.id = false →
      0 < (childrenOf s node).length →
      renderChildArea s node lvl = some (ChildArea.kids (childrenOf s node))) ∧
    (node.hasLoader = true → lookupKey s.loadedChildren node.id = none →
      getFlag s.expanded node.id = false →
      countId (handleToggle node s).fetchLog node.id =
        countId s.fetchLog node.id + 1) ∧
    ((lookupKey s.loadedChildren node.id).isSome = true →
      (lookupKey (runEvents rootId s es).loadedChildren node.id).isSome = true ∧
      childrenOf (runEvents rootId s es) node =
        (lookupKey (runEvents rootId s es).loadedChildren node.id).getD []) := by
  refine ⟨?_, ?_, ?_, ?_, ?_⟩
  · intro cs hc
    unfold childrenOf
    rw [hc]
  · intro hc
    unfold childrenOf
    rw [hc]
  · intro lvl ht hexp hload herr hlen
    unfold renderChildArea
    rw [ht]
    simp [hexp, hload, herr, hlen]
  · intro hl hc hexp
    rw [handleToggle_expand_fetch node s hl hc hexp]
    rw [countId_append, countId_single_same]
  · intro hsome
    have h1 := runEvents_cacheSome_stable rootId node.id s es hsome
    refine ⟨h1, ?_⟩
    obtain ⟨cs, hcs⟩ := Option.isSome_iff_exists.mp h1
    unfold childrenOf
    rw [hcs]
    rfl

/-- Witness for C10 on the fixture folder that owns both a static child
list and a loader: before any fetch the static list renders; the first
expansion fires a fetch anyway; after a successful fetch the cached
result is what renders, and it persists across a further toggle. -/
theorem render_children_selection_instance :
    childrenOf (mountTree staticRoot) folderG = [fileA] ∧
    countId (handleToggle folderG (mountTree staticRoot)).fetchLog "g" =
      countId (mountTree staticRoot).fetchLog "g" + 1 ∧
    childrenOf (runEvents "r" (mountTree staticRoot)
      [TreeEvent.toggle folderG,
       TreeEvent.settle "g" (FetchOutcome.ok [folderF])]) folderG = [folderF] ∧
    (lookupKey (runEvents "r"
      (runEvents "r" (mountTree staticRoot)
        [TreeEvent.toggle folderG,
         TreeEvent.settle "g" (FetchOutcome.ok [folderF])])
      [TreeEvent.toggle folderG]).loadedChildren "g").isSome = true :=
  ⟨(render_children_selection "r" (mountTree staticRoot) folderG []).2.1 rfl,
   (render_children_selection "r" (mountTree staticRoot) folderG []).2.2.2.1
     rfl rfl rfl,
   (render_children_selection "r"
     (runEvents "r" (mountTree staticRoot)
       [TreeEvent.toggle folderG,
        TreeEvent.settle "g" (FetchOutcome.ok [folderF])]) folderG []).1
     [folderF] rfl,
   ((render_children_selection "r"
     (runEvents "r" (mountTree staticRoot)
       [TreeEvent.toggle folderG,
        TreeEvent.settle "g" (FetchOutcome.ok [folderF])]) folderG
     [TreeEvent.toggle folderG]).2.2.2.2 rfl).1⟩
